import Mathlib

/-
Verification of the round lifecycle state machine of the social-deduction
game server. The definitions below are a shallow embedding of the
TypeScript source: the current server/game/gameService.ts (finalizeVoting,
enterVotingPhase, advanceAfterResults, startRoundForGame), the
server/socket/socket.ts round:submit handler, and the toxicity sanitizer of
server/game/aiPlayer.ts (assessAndCache, sanitizeContentForAI).

Modelling conventions:
  - In-place mutation of the session record becomes explicit state passing;
    functions return the updated records.
  - Math.random picks and randomUUID values are passed in as explicit
    parameters (an index into the candidate array, a uuid string).
  - The network call to the toxicity service is an explicit parameter of
    type Option ToxResponse; none models a transport or parse failure
    (the source catches the exception and returns null).
  - Timer arming, socket broadcasts and AI scheduling are external side
    effects with no influence on the session fields the claims mention;
    they are dropped from the pure translation.
  - TS optional fields that every constructor in the source initialises
    (Round.eliminatedPlayerIds, AIMemory.toxicityCache) are modelled as
    plain lists; the "?? []" coalescing in the source is thereby absorbed.
-/

namespace Impostor

inductive GameState where
  | LOBBY
  | IN_PROGRESS
  | ROUND_SUBMITTING
  | ROUND_VOTING
  | ROUND_RESULTS
  | GAME_OVER
deriving DecidableEq

inductive RoundStatus where
  | SUBMITTING
  | VOTING
  | COMPLETED
deriving DecidableEq

inductive RoundType where
  | TEXT
  | IMAGE
deriving DecidableEq

inductive Winner where
  | HUMANS
  | AIS
deriving DecidableEq

/-- gameTypes.ts ToxicityAssessment. Scores are rationals standing for the
JS numbers of detailed_scores (the claims do not depend on float rounding). -/
structure ToxicityAssessment where
  isToxic : Bool
  scores : List (String × Rat)
  replacedText : String
  summary : Option String
deriving DecidableEq

structure Vote where
  voterId : String
  submissionId : String
deriving DecidableEq

/-- gameTypes.ts Submission; submittedAt is the optional creation timestamp. -/
structure Submission where
  submissionId : String
  playerId : String
  content : String
  roundNumber : Nat
  submittedAt : Option Int
deriving DecidableEq

structure AIRoundSummaryEntry where
  playerId : String
  content : String
  sanitized : Bool
deriving DecidableEq

structure AIRoundSummary where
  roundNumber : Nat
  targetAlias : String
  submissions : List AIRoundSummaryEntry
  votes : List Vote
  eliminatedPlayerIds : List String
deriving DecidableEq

/-- gameTypes.ts AIMemory with the toxicity cache as an association list,
iterated in insertion order like a JS object. -/
structure AIMemory where
  kickedPlayers : List String
  roundsSummary : List AIRoundSummary
  notes : List String
  toxicityCache : List (String × ToxicityAssessment)
deriving DecidableEq

structure AIData where
  apiKey : Option String
  teamId : Option String
  memory : Option AIMemory
deriving DecidableEq

/-- gameTypes.ts Player. The display alias field is named playerAlias because
alias is a reserved word in this environment. -/
structure Player where
  playerId : String
  playerAlias : String
  colorId : String
  alive : Bool
  connected : Bool
  isAI : Bool
  aiData : Option AIData
  score : Int
  missedSubmissions : Nat
deriving DecidableEq

structure Round where
  roundNumber : Nat
  roundType : RoundType
  targetAlias : String
  roundPrompt : Option String
  status : RoundStatus
  submissions : List Submission
  votes : List Vote
  participantIds : List String
  eliminatedPlayerIds : List String
deriving DecidableEq

inductive AIRole where
  | MIMIC
  | BOLD
  | VAGUE
deriving DecidableEq

structure RoundPlan where
  roles : List (String × AIRole)
  usedSamples : List String
  fallbackVoteSubmissionId : Option String
deriving DecidableEq

/-- Per-team shared memory: AIMemory plus the per-round plans. -/
structure TeamMemory extends AIMemory where
  roundPlans : List (String × RoundPlan)
deriving DecidableEq

structure Game where
  code : String
  state : GameState
  roundNumber : Nat
  hostPlayerId : String
  players : List Player
  rounds : List Round
  winner : Option Winner
  aiTeamMemory : List (String × TeamMemory)
deriving DecidableEq

/-- game.players.find(p => p.playerId === pid): the first player with the
given id, the observation through which all player mutations are read. -/
def findPlayer (players : List Player) (pid : String) : Option Player :=
  players.find? (fun p => p.playerId == pid)

/-- In-place mutation of the player object returned by
game.players.find(p => p.playerId === pid): rewrite the first match. -/
def updateFirst (players : List Player) (pid : String) (f : Player → Player) : List Player :=
  match players with
  | [] => []
  | p :: rest => if p.playerId = pid then f p :: rest else p :: updateFirst rest pid f

/-- Stable ascending insertion by an integer key: a later element goes after
every earlier element with a key less than or equal to its own. -/
def insertByKey (key : Submission → Int) (a : Submission) : List Submission → List Submission
  | [] => [a]
  | b :: bs => if key b ≤ key a then b :: insertByKey key a bs else a :: b :: bs

/-- Array.prototype.sort with the comparator (a, b) => key a - key b:
stable, ascending by key. -/
def stableSortByKey (key : Submission → Int) (l : List Submission) : List Submission :=
  l.foldl (fun acc a => insertByKey key a acc) []

/-- Leading-whitespace removal on the character list. -/
def dropWS : List Char → List Char
  | [] => []
  | c :: cs => if c.isWhitespace then dropWS cs else c :: cs

/-- JS String.prototype.trim: strip leading and trailing whitespace. Defined
over the character list so that it evaluates by kernel reduction. -/
def jsTrim (s : String) : String :=
  String.mk ((dropWS (dropWS s.data).reverse).reverse)

-- === finalizeVoting, gameService.ts lines 145-247 ===

def PARTICIPATION_POINTS : Int := 10
def FAST_BONUSES : List Int := [5, 3, 1]
def NO_SUBMISSION_PENALTY : Int := 5

/-- round.submissions.filter(s => s.submittedAt != null && s.content.trim().length > 0)
sorted by (a.submittedAt ?? 0) - (b.submittedAt ?? 0). -/
def submissionsWithTime (subs : List Submission) : List Submission :=
  stableSortByKey (fun s => s.submittedAt.getD 0)
    (subs.filter (fun s => s.submittedAt.isSome && decide (0 < (jsTrim s.content).length)))

/-- The fast-bonus loop: index i runs over min(FAST_BONUSES.length, ranked.length),
modelled by zipping the ranked list with the bonus list. -/
def awardFast (players : List Player) (ranked : List Submission) : List Player :=
  (ranked.zip FAST_BONUSES).foldl
    (fun ps sb =>
      if 0 < (jsTrim sb.1.content).length then
        updateFirst ps sb.1.playerId (fun p => { p with score := p.score + sb.2 })
      else ps)
    players

/-- One iteration of the participation loop over round.submissions. -/
def participationStep (players : List Player) (s : Submission) : List Player :=
  if (jsTrim s.content).length = 0 then
    updateFirst players s.playerId
      (fun p => { p with missedSubmissions := p.missedSubmissions + 1,
                         score := p.score - NO_SUBMISSION_PENALTY })
  else
    updateFirst players s.playerId
      (fun p => { p with score := p.score + PARTICIPATION_POINTS,
                         missedSubmissions := 0 })

def participationPass (players : List Player) (subs : List Submission) : List Player :=
  subs.foldl participationStep players

/-- The missed-submission elimination loop over game.players: each player is
read and mutated only in its own iteration, so the alive flags are a map and
the eliminated-id list is a fold over the original players. -/
def missedElimPass (players : List Player) (already : List String) :
    List Player × List String :=
  (players.map (fun q =>
      if q.alive = true ∧ 2 ≤ q.missedSubmissions then { q with alive := false } else q),
   players.foldl (fun acc q =>
      if q.alive = true ∧ 2 ≤ q.missedSubmissions then
        (if q.playerId ∈ acc then acc else acc ++ [q.playerId])
      else acc) already)

/-- The full scoring section of finalizeVoting, in source order: fast bonuses,
participation and penalties, then missed-submission eliminations. It never
reads round.votes. -/
def scoringPass (players : List Player) (round : Round) : List Player × List String :=
  let players1 := awardFast players (submissionsWithTime round.submissions)
  let players2 := participationPass players1 round.submissions
  missedElimPass players2 round.eliminatedPlayerIds

/-- tally.set(v.submissionId, (tally.get(v.submissionId) ?? 0) + 1) on a JS Map:
bump the existing entry in place or append a new one. -/
def bumpTally : List (String × Nat) → String → List (String × Nat)
  | [], sid => [(sid, 1)]
  | e :: rest, sid =>
    if e.1 = sid then (e.1, e.2 + 1) :: rest else e :: bumpTally rest sid

def tallyVotes (votes : List Vote) : List (String × Nat) :=
  votes.foldl (fun acc v => bumpTally acc v.submissionId) []

/-- The maximum-votes scan over tally.entries(): count > maxVotes restarts the
candidate list, count === maxVotes && maxVotes > 0 appends to it. -/
def topTied : List (String × Nat) → Nat → List String → Nat × List String
  | [], mx, lst => (mx, lst)
  | e :: rest, mx, lst =>
    if mx < e.2 then topTied rest e.2 [e.1]
    else if e.2 = mx ∧ 0 < mx then topTied rest mx (lst ++ [e.1])
    else topTied rest mx lst

/-- The vote-based elimination candidates: the tied-top scan, then the
multi-way-tie reset to the empty list. -/
def topElimIds (tally : List (String × Nat)) : List String :=
  let r := topTied tally 0 []
  if 1 < r.2.length then [] else r.2

/-- The vote-based elimination loop: for each candidate submission id, find
the submission, find its author, and if the author is alive clear the alive
flag and record the id unless it is already in the list. -/
def applyVoteElims (players : List Player) (subs : List Submission)
    (elimSubIds : List String) (already : List String) :
    List Player × List String :=
  elimSubIds.foldl
    (fun acc sid =>
      match subs.find? (fun s => s.submissionId == sid) with
      | none => acc
      | some sub =>
        match acc.1.find? (fun p => p.playerId == sub.playerId) with
        | none => acc
        | some pl =>
          if pl.alive then
            (updateFirst acc.1 sub.playerId (fun p => { p with alive := false }),
             if sub.playerId ∈ acc.2 then acc.2 else acc.2 ++ [sub.playerId])
          else acc)
    (players, already)

/-- finalizeVoting: no-op on an already COMPLETED round; otherwise mark the
round COMPLETED, apply scoring, tally the votes, apply the vote-based
eliminations (emptied on a multi-way tie) and move to ROUND_RESULTS. -/
def finalizeVoting (game : Game) (round : Round) : Game × Round :=
  if round.status = RoundStatus.COMPLETED then (game, round)
  else
    let round1 := { round with status := RoundStatus.COMPLETED }
    let sp := scoringPass game.players round1
    let round2 := { round1 with eliminatedPlayerIds := sp.2 }
    let elimSubIds := topElimIds (tallyVotes round2.votes)
    let ve := applyVoteElims sp.1 round2.submissions elimSubIds round2.eliminatedPlayerIds
    let round3 := { round2 with eliminatedPlayerIds := ve.2 }
    ({ game with players := ve.1, state := GameState.ROUND_RESULTS }, round3)

/-- C4. Round finalization is idempotent: invoking finalizeVoting on a round
whose status is already COMPLETED returns the game and round unchanged, so
every score, missed-submission counter, alive flag, the eliminatedPlayerIds
list and the session state are untouched. -/
theorem finalize_idempotent_on_completed (game : Game) (round : Round)
    (h : round.status = RoundStatus.COMPLETED) :
    finalizeVoting game round = (game, round) := by
  simp [finalizeVoting, h]

theorem finalize_idempotent_on_completed_witness :
    finalizeVoting
      { code := "TEST", state := GameState.ROUND_RESULTS, roundNumber := 1,
        hostPlayerId := "p1",
        players := [{ playerId := "p1", playerAlias := "P1", colorId := "c1",
                      alive := true, connected := true, isAI := false,
                      aiData := none, score := 3, missedSubmissions := 0 }],
        rounds := [], winner := none, aiTeamMemory := [] }
      { roundNumber := 1, roundType := RoundType.TEXT, targetAlias := "P1",
        roundPrompt := none, status := RoundStatus.COMPLETED,
        submissions := [], votes := [], participantIds := ["p1"],
        eliminatedPlayerIds := [] }
    = ({ code := "TEST", state := GameState.ROUND_RESULTS, roundNumber := 1,
         hostPlayerId := "p1",
         players := [{ playerId := "p1", playerAlias := "P1", colorId := "c1",
                       alive := true, connected := true, isAI := false,
                       aiData := none, score := 3, missedSubmissions := 0 }],
         rounds := [], winner := none, aiTeamMemory := [] },
       { roundNumber := 1, roundType := RoundType.TEXT, targetAlias := "P1",
         roundPrompt := none, status := RoundStatus.COMPLETED,
         submissions := [], votes := [], participantIds := ["p1"],
         eliminatedPlayerIds := [] }) :=
  finalize_idempotent_on_completed _ _ rfl

-- === Lemmas on the tied-top scan, for C1 ===

theorem two_mem_two_le_length {L : List String} {a b : String}
    (ha : a ∈ L) (hb : b ∈ L) (hne : a ≠ b) : 2 ≤ L.length := by
  match L with
  | [] => cases ha
  | [x] =>
    simp only [List.mem_singleton] at ha hb
    exact absurd (ha.trans hb.symm) hne
  | x :: y :: rest => simp [List.length]

/-- If every remaining count is at most the current maximum, the scan never
resets and the accumulated tied list only grows. -/
theorem topTied_acc_mono (l : List (String × Nat)) (m : Nat) (lst : List String)
    (hle : ∀ e ∈ l, e.2 ≤ m) {x : String} (hx : x ∈ lst) :
    x ∈ (topTied l m lst).2 := by
  induction l generalizing lst with
  | nil => simpa [topTied] using hx
  | cons e rest ih =>
    have he : e.2 ≤ m := hle e (List.mem_cons_self e rest)
    have hrest : ∀ f ∈ rest, f.2 ≤ m := fun f hf => hle f (List.mem_cons_of_mem e hf)
    have hnlt : ¬ m < e.2 := Nat.not_lt.mpr he
    by_cases heq : e.2 = m ∧ 0 < m
    · simpa [topTied, hnlt, heq] using
        ih (lst ++ [e.1]) hrest (List.mem_append_left _ hx)
    · simpa [topTied, hnlt, heq] using ih lst hrest hx

/-- If one tied id is already in the accumulator and a second entry with the
maximal count is still to come, the scan ends with at least two tied ids. -/
theorem topTied_two_from_acc (l : List (String × Nat)) (m : Nat) (lst : List String)
    (s1 s2 : String)
    (hle : ∀ e ∈ l, e.2 ≤ m) (hm : 0 < m) (h2 : (s2, m) ∈ l)
    (h1 : s1 ∈ lst) (hne : s1 ≠ s2) :
    2 ≤ (topTied l m lst).2.length := by
  induction l generalizing lst with
  | nil => cases h2
  | cons e rest ih =>
    have he : e.2 ≤ m := hle e (List.mem_cons_self e rest)
    have hrest : ∀ f ∈ rest, f.2 ≤ m := fun f hf => hle f (List.mem_cons_of_mem e hf)
    have hnlt : ¬ m < e.2 := Nat.not_lt.mpr he
    rcases List.mem_cons.mp h2 with hhead | htail
    · have hes : e = (s2, m) := hhead.symm
      subst hes
      have hcond : (m = m ∧ 0 < m) := ⟨rfl, hm⟩
      have hmem1 : s1 ∈ lst ++ [s2] := List.mem_append_left _ h1
      have hmem2 : s2 ∈ lst ++ [s2] := List.mem_append_right _ (List.mem_singleton.mpr rfl)
      have hr1 : s1 ∈ (topTied rest m (lst ++ [s2])).2 := topTied_acc_mono rest m _ hrest hmem1
      have hr2 : s2 ∈ (topTied rest m (lst ++ [s2])).2 := topTied_acc_mono rest m _ hrest hmem2
      simpa [topTied, hnlt, hcond] using two_mem_two_le_length hr1 hr2 hne
    · by_cases heq : e.2 = m ∧ 0 < m
      · simpa [topTied, hnlt, heq] using
          ih (lst ++ [e.1]) hrest htail (List.mem_append_left _ h1)
      · simpa [topTied, hnlt, heq] using ih lst hrest htail h1

/-- Two distinct entries sharing the maximal count make the scan end with at
least two tied ids, from any starting state below the maximum. -/
theorem topTied_tie_two (l : List (String × Nat)) (m mx : Nat) (lst : List String)
    (s1 s2 : String)
    (hle : ∀ e ∈ l, e.2 ≤ m) (hm : 0 < m) (hmx : mx ≤ m)
    (h1 : (s1, m) ∈ l) (h2 : (s2, m) ∈ l) (hne : s1 ≠ s2) :
    2 ≤ (topTied l mx lst).2.length := by
  induction l generalizing mx lst with
  | nil => cases h1
  | cons e rest ih =>
    have hrest : ∀ f ∈ rest, f.2 ≤ m := fun f hf => hle f (List.mem_cons_of_mem e hf)
    rcases List.mem_cons.mp h1 with hh1 | ht1
    · -- the head is (s1, m); the second tied entry must be in the tail
      have he : e = (s1, m) := hh1.symm
      subst he
      have ht2 : (s2, m) ∈ rest := by
        rcases List.mem_cons.mp h2 with hh2 | ht2
        · exact absurd (congrArg Prod.fst hh2).symm hne
        · exact ht2
      by_cases hlt : mx < m
      · have := topTied_two_from_acc rest m [s1] s1 s2 hrest hm ht2
          (List.mem_singleton.mpr rfl) hne
        simpa [topTied, hlt] using this
      · have hmeq : mx = m := Nat.le_antisymm hmx (Nat.not_lt.mp hlt)
        have hcond : (m = mx ∧ 0 < mx) := ⟨hmeq.symm, hmeq ▸ hm⟩
        have hstep := topTied_two_from_acc rest m (lst ++ [s1]) s1 s2 hrest hm ht2
          (List.mem_append_right _ (List.mem_singleton.mpr rfl)) hne
        rw [hmeq] at hcond ⊢
        simpa [topTied, hmeq ▸ hlt, hcond] using hstep
    · rcases List.mem_cons.mp h2 with hh2 | ht2
      · -- the head is (s2, m); symmetric case
        have he : e = (s2, m) := hh2.symm
        subst he
        by_cases hlt : mx < m
        · have := topTied_two_from_acc rest m [s2] s2 s1 hrest hm ht1
            (List.mem_singleton.mpr rfl) hne.symm
          simpa [topTied, hlt] using this
        · have hmeq : mx = m := Nat.le_antisymm hmx (Nat.not_lt.mp hlt)
          have hcond : (m = mx ∧ 0 < mx) := ⟨hmeq.symm, hmeq ▸ hm⟩
          have hstep := topTied_two_from_acc rest m (lst ++ [s2]) s2 s1 hrest hm ht1
            (List.mem_append_right _ (List.mem_singleton.mpr rfl)) hne.symm
          rw [hmeq] at hcond ⊢
          simpa [topTied, hmeq ▸ hlt, hcond] using hstep
      · -- both tied entries are in the tail; step over the head
        have he : e.2 ≤ m := hle e (List.mem_cons_self e rest)
        by_cases hlt : mx < e.2
        · simpa [topTied, hlt] using ih e.2 [e.1] hrest he ht1 ht2
        · by_cases heq : e.2 = mx ∧ 0 < mx
          · simpa [topTied, hlt, heq] using ih mx (lst ++ [e.1]) hrest hmx ht1 ht2
          · simpa [topTied, hlt, heq] using ih mx lst hrest hmx ht1 ht2

/-- A multi-way tie for the strict maximum empties the vote-based candidate
list. -/
theorem topElimIds_tie_empty (tally : List (String × Nat)) (m : Nat) (s1 s2 : String)
    (hle : ∀ e ∈ tally, e.2 ≤ m) (hm : 0 < m)
    (h1 : (s1, m) ∈ tally) (h2 : (s2, m) ∈ tally) (hne : s1 ≠ s2) :
    topElimIds tally = [] := by
  have h2len : 2 ≤ (topTied tally 0 []).2.length :=
    topTied_tie_two tally m 0 [] s1 s2 hle hm (Nat.zero_le m) h1 h2 hne
  have : 1 < (topTied tally 0 []).2.length := h2len
  simp [topElimIds, this]

/-- C1. If two or more submissions are tied for the strict maximum vote count,
the vote-based elimination candidate list is empty and finalizeVoting changes
the players and the eliminated list exactly as the scoring pass alone does:
no alive flag is cleared on account of the vote tally (missed-submission
eliminations, which are part of the scoring pass, may still occur). -/
theorem tie_yields_no_vote_elimination (game : Game) (round : Round) (m : Nat)
    (s1 s2 : String)
    (hst : round.status ≠ RoundStatus.COMPLETED)
    (h1 : (s1, m) ∈ tallyVotes round.votes)
    (h2 : (s2, m) ∈ tallyVotes round.votes)
    (hne : s1 ≠ s2)
    (hle : ∀ e ∈ tallyVotes round.votes, e.2 ≤ m)
    (hm : 0 < m) :
    topElimIds (tallyVotes round.votes) = [] ∧
    (finalizeVoting game round).1.players
      = (scoringPass game.players { round with status := RoundStatus.COMPLETED }).1 ∧
    (finalizeVoting game round).2.eliminatedPlayerIds
      = (scoringPass game.players { round with status := RoundStatus.COMPLETED }).2 := by
  have htop : topElimIds (tallyVotes round.votes) = [] :=
    topElimIds_tie_empty _ m s1 s2 hle hm h1 h2 hne
  refine ⟨htop, ?_, ?_⟩ <;>
    simp [finalizeVoting, hst, htop, applyVoteElims]

theorem tie_yields_no_vote_elimination_witness :
    topElimIds (tallyVotes [⟨"p1", "sA"⟩, ⟨"p2", "sB"⟩]) = [] ∧
    (finalizeVoting
      { code := "TEST", state := GameState.ROUND_VOTING, roundNumber := 1,
        hostPlayerId := "p1",
        players := [{ playerId := "p1", playerAlias := "P1", colorId := "c1",
                      alive := true, connected := true, isAI := false,
                      aiData := none, score := 0, missedSubmissions := 0 },
                    { playerId := "p2", playerAlias := "P2", colorId := "c2",
                      alive := true, connected := true, isAI := false,
                      aiData := none, score := 0, missedSubmissions := 0 }],
        rounds := [], winner := none, aiTeamMemory := [] }
      { roundNumber := 1, roundType := RoundType.TEXT, targetAlias := "P1",
        roundPrompt := none, status := RoundStatus.VOTING,
        submissions := [{ submissionId := "sA", playerId := "p1", content := "hi",
                          roundNumber := 1, submittedAt := none },
                        { submissionId := "sB", playerId := "p2", content := "yo",
                          roundNumber := 1, submittedAt := none }],
        votes := [⟨"p1", "sA"⟩, ⟨"p2", "sB"⟩],
        participantIds := ["p1", "p2"], eliminatedPlayerIds := [] }).1.players
      = (scoringPass
          [{ playerId := "p1", playerAlias := "P1", colorId := "c1",
             alive := true, connected := true, isAI := false,
             aiData := none, score := 0, missedSubmissions := 0 },
           { playerId := "p2", playerAlias := "P2", colorId := "c2",
             alive := true, connected := true, isAI := false,
             aiData := none, score := 0, missedSubmissions := 0 }]
          { roundNumber := 1, roundType := RoundType.TEXT, targetAlias := "P1",
            roundPrompt := none, status := RoundStatus.COMPLETED,
            submissions := [{ submissionId := "sA", playerId := "p1", content := "hi",
                              roundNumber := 1, submittedAt := none },
                            { submissionId := "sB", playerId := "p2", content := "yo",
                              roundNumber := 1, submittedAt := none }],
            votes := [⟨"p1", "sA"⟩, ⟨"p2", "sB"⟩],
            participantIds := ["p1", "p2"], eliminatedPlayerIds := [] }).1 := by
  have h := tie_yields_no_vote_elimination
    { code := "TEST", state := GameState.ROUND_VOTING, roundNumber := 1,
      hostPlayerId := "p1",
      players := [{ playerId := "p1", playerAlias := "P1", colorId := "c1",
                    alive := true, connected := true, isAI := false,
                    aiData := none, score := 0, missedSubmissions := 0 },
                  { playerId := "p2", playerAlias := "P2", colorId := "c2",
                    alive := true, connected := true, isAI := false,
                    aiData := none, score := 0, missedSubmissions := 0 }],
      rounds := [], winner := none, aiTeamMemory := [] }
    { roundNumber := 1, roundType := RoundType.TEXT, targetAlias := "P1",
      roundPrompt := none, status := RoundStatus.VOTING,
      submissions := [{ submissionId := "sA", playerId := "p1", content := "hi",
                        roundNumber := 1, submittedAt := none },
                      { submissionId := "sB", playerId := "p2", content := "yo",
                        roundNumber := 1, submittedAt := none }],
      votes := [⟨"p1", "sA"⟩, ⟨"p2", "sB"⟩],
      participantIds := ["p1", "p2"], eliminatedPlayerIds := [] }
    1 "sA" "sB" (by decide) (by decide) (by decide) (by decide) (by decide) (by decide)
  exact ⟨h.1, h.2.1⟩

-- === Observation lemmas: findPlayer through the mutation helpers ===

theorem findPlayer_cons (p : Player) (l : List Player) (pid : String) :
    findPlayer (p :: l) pid = if p.playerId = pid then some p else findPlayer l pid := by
  by_cases h : p.playerId = pid
  · simp [findPlayer, List.find?_cons, h]
  · simp [findPlayer, List.find?_cons, h]

theorem findPlayer_updateFirst_ne (ps : List Player) (pid qid : String) (f : Player → Player)
    (hpres : ∀ x, (f x).playerId = x.playerId) (hne : pid ≠ qid) :
    findPlayer (updateFirst ps qid f) pid = findPlayer ps pid := by
  induction ps with
  | nil => rfl
  | cons p rest ih =>
    by_cases hq : p.playerId = qid
    · have hfp : (f p).playerId = pid ↔ False := by
        rw [hpres p, hq]; exact iff_false_intro (Ne.symm hne)
      have hpp : p.playerId = pid ↔ False := by
        rw [hq]; exact iff_false_intro (Ne.symm hne)
      have hqp : qid = pid ↔ False := iff_false_intro (Ne.symm hne)
      simp [updateFirst, hq, findPlayer_cons, hfp, hpp, hqp]
    · simp [updateFirst, hq, findPlayer_cons, ih]

theorem findPlayer_updateFirst_eq (ps : List Player) (qid : String) (f : Player → Player)
    (hpres : ∀ x, (f x).playerId = x.playerId) :
    findPlayer (updateFirst ps qid f) qid = (findPlayer ps qid).map f := by
  induction ps with
  | nil => rfl
  | cons p rest ih =>
    by_cases hq : p.playerId = qid
    · have hfp : (f p).playerId = qid := by rw [hpres p, hq]
      simp [updateFirst, hq, findPlayer_cons, hfp]
    · simp [updateFirst, hq, findPlayer_cons, ih]

theorem findPlayer_map (ps : List Player) (g : Player → Player)
    (hpres : ∀ x, (g x).playerId = x.playerId) (pid : String) :
    findPlayer (ps.map g) pid = (findPlayer ps pid).map g := by
  induction ps with
  | nil => rfl
  | cons p rest ih =>
    by_cases hp : p.playerId = pid
    · have hgp : (g p).playerId = pid := by rw [hpres p, hp]
      simp [findPlayer_cons, hp, hgp]
    · have hgp : (g p).playerId = pid ↔ False := by
        rw [hpres p]; exact iff_false_intro hp
      simp [findPlayer_cons, hp, hgp, ih]

theorem findPlayer_mem_eq (ps : List Player) (pid : String) (q : Player)
    (h : findPlayer ps pid = some q) : q ∈ ps ∧ q.playerId = pid := by
  refine ⟨List.mem_of_find?_eq_some h, ?_⟩
  have := List.find?_some h
  exact eq_of_beq this

-- === Participation pass lemmas ===

theorem findPlayer_participationStep_ne (ps : List Player) (s : Submission) (pid : String)
    (hne : pid ≠ s.playerId) :
    findPlayer (participationStep ps s) pid = findPlayer ps pid := by
  by_cases h : (jsTrim s.content).length = 0
  · unfold participationStep
    rw [if_pos h]
    exact findPlayer_updateFirst_ne ps pid s.playerId _ (fun x => rfl) hne
  · unfold participationStep
    rw [if_neg h]
    exact findPlayer_updateFirst_ne ps pid s.playerId _ (fun x => rfl) hne

theorem findPlayer_participationStep_eq (ps : List Player) (s : Submission) (q : Player)
    (hq : findPlayer ps s.playerId = some q) :
    findPlayer (participationStep ps s) s.playerId =
      some (if (jsTrim s.content).length = 0
            then { q with missedSubmissions := q.missedSubmissions + 1,
                          score := q.score - NO_SUBMISSION_PENALTY }
            else { q with score := q.score + PARTICIPATION_POINTS,
                          missedSubmissions := 0 }) := by
  by_cases h : (jsTrim s.content).length = 0
  · unfold participationStep
    rw [if_pos h, if_pos h,
      findPlayer_updateFirst_eq ps s.playerId
        (fun p => { p with missedSubmissions := p.missedSubmissions + 1,
                           score := p.score - NO_SUBMISSION_PENALTY })
        (fun x => rfl), hq]
    rfl
  · unfold participationStep
    rw [if_neg h, if_neg h,
      findPlayer_updateFirst_eq ps s.playerId
        (fun p => { p with score := p.score + PARTICIPATION_POINTS,
                           missedSubmissions := 0 })
        (fun x => rfl), hq]
    rfl

theorem participationPass_no_author (subs : List Submission) (ps : List Player) (pid : String)
    (h : ∀ s ∈ subs, s.playerId ≠ pid) :
    findPlayer (participationPass ps subs) pid = findPlayer ps pid := by
  induction subs generalizing ps with
  | nil => rfl
  | cons s0 rest ih =>
    have hne : pid ≠ s0.playerId := (h s0 (List.mem_cons_self s0 rest)).symm
    have hrest : ∀ s ∈ rest, s.playerId ≠ pid := fun s hs => h s (List.mem_cons_of_mem s0 hs)
    calc findPlayer (participationPass (participationStep ps s0) rest) pid
        = findPlayer (participationStep ps s0) pid := ih (participationStep ps s0) hrest
      _ = findPlayer ps pid := findPlayer_participationStep_ne ps s0 pid hne

theorem participationPass_author (subs : List Submission) (ps : List Player)
    (s : Submission) (q : Player)
    (hmem : s ∈ subs) (hnodup : (subs.map (fun x => x.playerId)).Nodup)
    (hq : findPlayer ps s.playerId = some q) :
    findPlayer (participationPass ps subs) s.playerId =
      some (if (jsTrim s.content).length = 0
            then { q with missedSubmissions := q.missedSubmissions + 1,
                          score := q.score - NO_SUBMISSION_PENALTY }
            else { q with score := q.score + PARTICIPATION_POINTS,
                          missedSubmissions := 0 }) := by
  induction subs generalizing ps with
  | nil => cases hmem
  | cons s0 rest ih =>
    have hnodup0 : s0.playerId ∉ rest.map (fun x => x.playerId) :=
      (List.nodup_cons.mp (by simpa using hnodup)).1
    have hnodupRest : (rest.map (fun x => x.playerId)).Nodup :=
      (List.nodup_cons.mp (by simpa using hnodup)).2
    rcases List.mem_cons.mp hmem with hh | ht
    · subst hh
      have hrest : ∀ x ∈ rest, x.playerId ≠ s.playerId := by
        intro x hx hcontra
        exact hnodup0 (hcontra ▸ List.mem_map_of_mem (fun y => y.playerId) hx)
      calc findPlayer (participationPass (participationStep ps s) rest) s.playerId
          = findPlayer (participationStep ps s) s.playerId :=
            participationPass_no_author rest _ s.playerId hrest
        _ = _ := findPlayer_participationStep_eq ps s q hq
    · have hne : s.playerId ≠ s0.playerId := by
        intro hcontra
        exact hnodup0 (hcontra ▸ List.mem_map_of_mem (fun y => y.playerId) ht)
      have hq2 : findPlayer (participationStep ps s0) s.playerId = some q := by
        rw [findPlayer_participationStep_ne ps s0 s.playerId hne]; exact hq
      exact ih (participationStep ps s0) ht hnodupRest hq2

-- === Missed-submission elimination lemmas ===

theorem elimFold_mono (ps : List Player) (acc : List String) (x : String) (hx : x ∈ acc) :
    x ∈ ps.foldl (fun acc q =>
      if q.alive = true ∧ 2 ≤ q.missedSubmissions then
        (if q.playerId ∈ acc then acc else acc ++ [q.playerId])
      else acc) acc := by
  induction ps generalizing acc with
  | nil => simpa using hx
  | cons q0 rest ih =>
    by_cases h : q0.alive = true ∧ 2 ≤ q0.missedSubmissions
    · by_cases hc : q0.playerId ∈ acc
      · simpa [h, hc] using ih acc hx
      · simpa [h, hc] using ih (acc ++ [q0.playerId]) (List.mem_append_left _ hx)
    · simpa [h] using ih acc hx

theorem elimFold_adds (ps : List Player) (acc : List String) (pid : String)
    (h : ∃ q ∈ ps, q.playerId = pid ∧ q.alive = true ∧ 2 ≤ q.missedSubmissions) :
    pid ∈ ps.foldl (fun acc q =>
      if q.alive = true ∧ 2 ≤ q.missedSubmissions then
        (if q.playerId ∈ acc then acc else acc ++ [q.playerId])
      else acc) acc := by
  induction ps generalizing acc with
  | nil => rcases h with ⟨q, hq, _⟩; cases hq
  | cons q0 rest ih =>
    rcases h with ⟨q, hqmem, hqid, hqalive, hqmiss⟩
    rcases List.mem_cons.mp hqmem with hh | ht
    · subst hh
      have hcond : q.alive = true ∧ 2 ≤ q.missedSubmissions := ⟨hqalive, hqmiss⟩
      by_cases hc : q.playerId ∈ acc
      · have hmem : pid ∈ acc := hqid ▸ hc
        simpa [hcond, hc] using elimFold_mono rest acc pid hmem
      · have hmem : pid ∈ acc ++ [q.playerId] :=
          List.mem_append_right _ (by simp [hqid])
        simpa [hcond, hc] using elimFold_mono rest (acc ++ [q.playerId]) pid hmem
    · by_cases hcond : q0.alive = true ∧ 2 ≤ q0.missedSubmissions
      · by_cases hc : q0.playerId ∈ acc
        · simpa [hcond, hc] using ih acc ⟨q, ht, hqid, hqalive, hqmiss⟩
        · simpa [hcond, hc] using ih (acc ++ [q0.playerId]) ⟨q, ht, hqid, hqalive, hqmiss⟩
      · simpa [hcond] using ih acc ⟨q, ht, hqid, hqalive, hqmiss⟩

theorem missedElimPass_eliminates (ps : List Player) (already : List String)
    (pid : String) (q : Player)
    (hq : findPlayer ps pid = some q) (halive : q.alive = true)
    (hmiss : 2 ≤ q.missedSubmissions) :
    findPlayer (missedElimPass ps already).1 pid = some { q with alive := false } ∧
    pid ∈ (missedElimPass ps already).2 := by
  constructor
  · have hpres : ∀ x : Player,
        ((if x.alive = true ∧ 2 ≤ x.missedSubmissions then { x with alive := false } else x) :
          Player).playerId = x.playerId := by
      intro x; by_cases h : x.alive = true ∧ 2 ≤ x.missedSubmissions <;> simp [h]
    have := findPlayer_map ps
      (fun x => if x.alive = true ∧ 2 ≤ x.missedSubmissions then { x with alive := false } else x)
      hpres pid
    rw [missedElimPass]
    simp only [this, hq, Option.map_some]
    have hcond : q.alive = true ∧ 2 ≤ q.missedSubmissions := ⟨halive, hmiss⟩
    simp [hcond]
  · rcases findPlayer_mem_eq ps pid q hq with ⟨hmem, hid⟩
    exact elimFold_adds ps already pid ⟨q, hmem, hid, halive, hmiss⟩

-- === Sorted filtered submissions: membership ===

theorem mem_insertByKey (key : Submission → Int) (a x : Submission) (l : List Submission) :
    x ∈ insertByKey key a l ↔ x = a ∨ x ∈ l := by
  induction l with
  | nil => simp [insertByKey]
  | cons b bs ih =>
    by_cases h : key b ≤ key a
    · simp [insertByKey, h, ih]; tauto
    · simp [insertByKey, h]

theorem mem_sortFold (key : Submission → Int) (l : List Submission) (acc : List Submission)
    (x : Submission) :
    x ∈ l.foldl (fun acc a => insertByKey key a acc) acc ↔ x ∈ acc ∨ x ∈ l := by
  induction l generalizing acc with
  | nil => simp
  | cons a rest ih =>
    simp only [List.foldl_cons, ih (insertByKey key a acc), mem_insertByKey]
    simp [List.mem_cons]; tauto

theorem mem_submissionsWithTime (subs : List Submission) (x : Submission) :
    x ∈ submissionsWithTime subs ↔
      x ∈ subs ∧ x.submittedAt.isSome = true ∧ 0 < (jsTrim x.content).length := by
  simp only [submissionsWithTime, stableSortByKey, mem_sortFold, List.not_mem_nil,
    false_or, List.mem_filter]
  simp

-- === The fast-bonus pass on a ranked list of length at least 3 ===

theorem awardFast_cons3 (ps : List Player) (s0 s1 s2 : Submission) (rest : List Submission)
    (h0 : 0 < (jsTrim s0.content).length) (h1 : 0 < (jsTrim s1.content).length)
    (h2 : 0 < (jsTrim s2.content).length) :
    awardFast ps (s0 :: s1 :: s2 :: rest) =
      updateFirst
        (updateFirst
          (updateFirst ps s0.playerId (fun p => { p with score := p.score + 5 }))
          s1.playerId (fun p => { p with score := p.score + 3 }))
        s2.playerId (fun p => { p with score := p.score + 1 }) := by
  simp [awardFast, FAST_BONUSES, List.zip_cons_cons, h0, h1, h2]

-- === Concrete 4-player scenario for the scoring claim ===

def exPA : Player :=
  { playerId := "pA", playerAlias := "A", colorId := "c1", alive := true,
    connected := true, isAI := false, aiData := none, score := 0, missedSubmissions := 0 }

def exPB : Player :=
  { playerId := "pB", playerAlias := "B", colorId := "c2", alive := true,
    connected := true, isAI := false, aiData := none, score := 0, missedSubmissions := 0 }

def exPC : Player :=
  { playerId := "pC", playerAlias := "C", colorId := "c3", alive := true,
    connected := true, isAI := false, aiData := none, score := 0, missedSubmissions := 0 }

def exPD : Player :=
  { playerId := "pD", playerAlias := "D", colorId := "c4", alive := true,
    connected := true, isAI := false, aiData := none, score := 0, missedSubmissions := 0 }

def exPlayers : List Player := [exPA, exPB, exPC, exPD]

/-- Non-empty submission at time t. -/
def exSA : Submission :=
  { submissionId := "sA", playerId := "pA", content := "alpha", roundNumber := 1,
    submittedAt := some 1000 }

/-- Empty submission at time t + 50. -/
def exSB : Submission :=
  { submissionId := "sB", playerId := "pB", content := "", roundNumber := 1,
    submittedAt := some 1050 }

/-- Non-empty submission at time t + 100. -/
def exSC : Submission :=
  { submissionId := "sC", playerId := "pC", content := "beta", roundNumber := 1,
    submittedAt := some 1100 }

/-- Non-empty submission at time t + 200. -/
def exSD : Submission :=
  { submissionId := "sD", playerId := "pD", content := "gamma", roundNumber := 1,
    submittedAt := some 1200 }

def exSubs : List Submission := [exSA, exSB, exSC, exSD]

/-- All votes but one target the empty author pB. -/
def exRound : Round :=
  { roundNumber := 1, roundType := RoundType.TEXT, targetAlias := "A",
    roundPrompt := none, status := RoundStatus.VOTING, submissions := exSubs,
    votes := [⟨"pA", "sB"⟩, ⟨"pC", "sB"⟩, ⟨"pD", "sB"⟩, ⟨"pB", "sA"⟩],
    participantIds := ["pA", "pB", "pC", "pD"], eliminatedPlayerIds := [] }

def exGame : Game :=
  { code := "EXAM", state := GameState.ROUND_VOTING, roundNumber := 1,
    hostPlayerId := "pA", players := exPlayers, rounds := [exRound],
    winner := none, aiTeamMemory := [] }

/-- A player already at two missed submissions, for the elimination clause. -/
def exPX : Player :=
  { playerId := "pX", playerAlias := "X", colorId := "c5", alive := true,
    connected := true, isAI := false, aiData := none, score := 0, missedSubmissions := 2 }

/-- C2. Scoring at finalization: the three earliest timestamped non-empty
submissions earn descending 5/3/1 speed bonuses; each non-empty submission
earns the flat participation bonus and resets its author's missed counter;
each empty submission incurs the flat penalty and increments the counter;
any alive player whose counter reaches two or more is eliminated by the
scoring pass (which never reads the votes); and in the concrete 4-player
scenario with timestamps t, t+50 (empty), t+100, t+200 and three of four
votes on the empty author, the non-empty authors end at 15/13/11 points and
the empty author is penalized to -5 and eliminated. -/
theorem scoring_applied_at_finalization
    (ps ps2 players4 : List Player) (subs : List Submission)
    (s0 s1 s2 : Submission) (rest : List Submission) (p0 p1 p2 : Player)
    (s : Submission) (q : Player) (already : List String) (pidE : String) (pE : Player)
    (hranked : submissionsWithTime subs = s0 :: s1 :: s2 :: rest)
    (hd01 : s0.playerId ≠ s1.playerId) (hd02 : s0.playerId ≠ s2.playerId)
    (hd12 : s1.playerId ≠ s2.playerId)
    (hf0 : findPlayer ps s0.playerId = some p0)
    (hf1 : findPlayer ps s1.playerId = some p1)
    (hf2 : findPlayer ps s2.playerId = some p2)
    (hnodup : (subs.map (fun x => x.playerId)).Nodup)
    (hsmem : s ∈ subs)
    (hq : findPlayer ps2 s.playerId = some q)
    (hE : findPlayer players4 pidE = some pE)
    (hEalive : pE.alive = true) (hEmiss : 2 ≤ pE.missedSubmissions) :
    (findPlayer (awardFast ps (submissionsWithTime subs)) s0.playerId
        = some { p0 with score := p0.score + 5 } ∧
     findPlayer (awardFast ps (submissionsWithTime subs)) s1.playerId
        = some { p1 with score := p1.score + 3 } ∧
     findPlayer (awardFast ps (submissionsWithTime subs)) s2.playerId
        = some { p2 with score := p2.score + 1 }) ∧
    findPlayer (participationPass ps2 subs) s.playerId
      = some (if (jsTrim s.content).length = 0
              then { q with missedSubmissions := q.missedSubmissions + 1,
                            score := q.score - NO_SUBMISSION_PENALTY }
              else { q with score := q.score + PARTICIPATION_POINTS,
                            missedSubmissions := 0 }) ∧
    (findPlayer (missedElimPass players4 already).1 pidE
        = some { pE with alive := false } ∧
     pidE ∈ (missedElimPass players4 already).2) ∧
    (findPlayer (finalizeVoting exGame exRound).1.players "pA"
        = some { exPA with score := 15 } ∧
     findPlayer (finalizeVoting exGame exRound).1.players "pC"
        = some { exPC with score := 13 } ∧
     findPlayer (finalizeVoting exGame exRound).1.players "pD"
        = some { exPD with score := 11 } ∧
     findPlayer (finalizeVoting exGame exRound).1.players "pB"
        = some { exPB with score := -5, missedSubmissions := 1, alive := false } ∧
     (finalizeVoting exGame exRound).2.eliminatedPlayerIds = ["pB"] ∧
     (finalizeVoting exGame exRound).1.state = GameState.ROUND_RESULTS) := by
  have hm0 : s0 ∈ submissionsWithTime subs := by
    rw [hranked]; exact List.mem_cons_self _ _
  have hm1 : s1 ∈ submissionsWithTime subs := by
    rw [hranked]; exact List.mem_cons_of_mem _ (List.mem_cons_self _ _)
  have hm2 : s2 ∈ submissionsWithTime subs := by
    rw [hranked]
    exact List.mem_cons_of_mem _ (List.mem_cons_of_mem _ (List.mem_cons_self _ _))
  have h0t : 0 < (jsTrim s0.content).length := ((mem_submissionsWithTime subs s0).mp hm0).2.2
  have h1t : 0 < (jsTrim s1.content).length := ((mem_submissionsWithTime subs s1).mp hm1).2.2
  have h2t : 0 < (jsTrim s2.content).length := ((mem_submissionsWithTime subs s2).mp hm2).2.2
  refine ⟨⟨?_, ?_, ?_⟩, ?_, ?_, ?_⟩
  · rw [hranked, awardFast_cons3 ps s0 s1 s2 rest h0t h1t h2t,
      findPlayer_updateFirst_ne _ s0.playerId s2.playerId
        (fun p => { p with score := p.score + 1 }) (fun x => rfl) hd02,
      findPlayer_updateFirst_ne _ s0.playerId s1.playerId
        (fun p => { p with score := p.score + 3 }) (fun x => rfl) hd01,
      findPlayer_updateFirst_eq ps s0.playerId
        (fun p => { p with score := p.score + 5 }) (fun x => rfl), hf0]
    rfl
  · rw [hranked, awardFast_cons3 ps s0 s1 s2 rest h0t h1t h2t,
      findPlayer_updateFirst_ne _ s1.playerId s2.playerId
        (fun p => { p with score := p.score + 1 }) (fun x => rfl) hd12,
      findPlayer_updateFirst_eq _ s1.playerId
        (fun p => { p with score := p.score + 3 }) (fun x => rfl),
      findPlayer_updateFirst_ne _ s1.playerId s0.playerId
        (fun p => { p with score := p.score + 5 }) (fun x => rfl) (Ne.symm hd01), hf1]
    rfl
  · rw [hranked, awardFast_cons3 ps s0 s1 s2 rest h0t h1t h2t,
      findPlayer_updateFirst_eq _ s2.playerId
        (fun p => { p with score := p.score + 1 }) (fun x => rfl),
      findPlayer_updateFirst_ne _ s2.playerId s1.playerId
        (fun p => { p with score := p.score + 3 }) (fun x => rfl) (Ne.symm hd12),
      findPlayer_updateFirst_ne _ s2.playerId s0.playerId
        (fun p => { p with score := p.score + 5 }) (fun x => rfl) (Ne.symm hd02), hf2]
    rfl
  · exact participationPass_author subs ps2 s q hsmem hnodup hq
  · exact missedElimPass_eliminates players4 already pidE pE hE hEalive hEmiss
  · refine ⟨?_, ?_, ?_, ?_, ?_, ?_⟩ <;> decide

theorem scoring_applied_at_finalization_witness :
    findPlayer (awardFast exPlayers (submissionsWithTime exSubs)) exSA.playerId
      = some { exPA with score := exPA.score + 5 } ∧
    findPlayer (participationPass exPlayers exSubs) exSB.playerId
      = some (if (jsTrim exSB.content).length = 0
              then { exPB with missedSubmissions := exPB.missedSubmissions + 1,
                               score := exPB.score - NO_SUBMISSION_PENALTY }
              else { exPB with score := exPB.score + PARTICIPATION_POINTS,
                               missedSubmissions := 0 }) ∧
    findPlayer (missedElimPass [exPX] []).1 "pX" = some { exPX with alive := false } := by
  have h := scoring_applied_at_finalization
    exPlayers exPlayers [exPX] exSubs exSA exSC exSD [] exPA exPC exPD exSB exPB [] "pX" exPX
    (by decide) (by decide) (by decide) (by decide) (by decide) (by decide) (by decide)
    (by decide) (by decide) (by decide) (by decide) (by decide) (by decide)
  exact ⟨h.1.1, h.2.1, h.2.2.1.1⟩

-- === startRoundForGame, gameService.ts lines 348-394 ===

/-- pickRandom(arr): arr[Math.floor(Math.random() * arr.length)] ?? arr[0],
throwing on an empty array. The random draw is the index parameter; the
source draw always lies below arr.length, and the ?? arr[0] fallback makes
any out-of-range index still yield an element. -/
def pickRandom (idx : Nat) (arr : List α) : Option α :=
  match arr with
  | [] => none
  | a :: _ => some (arr.getD idx a)

/-- generateRoundPrompt: targetAlias || "the target" feeds one of five
templates picked at random. -/
def generateRoundPrompt (pidx : Nat) (targetAlias : String) : String :=
  let t := if targetAlias = "" then "the target" else targetAlias
  let templates :=
    ["Name one thing " ++ t ++ " hates.",
     "Name what you like about " ++ t ++ ".",
     "What would " ++ t ++ " say on a bad day?",
     "What does " ++ t ++ " always forget?",
     "Write a short sentence about " ++ t ++ "."]
  (pickRandom pidx templates).getD ""

def humanPlayersOf (game : Game) : List Player :=
  game.players.filter (fun p => !p.isAI)

/-- humanPlayers.length > 0 ? humanPlayers : game.players. -/
def targetPoolOf (game : Game) : List Player :=
  if 0 < (humanPlayersOf game).length then humanPlayersOf game else game.players

/-- game.rounds?.[game.rounds.length - 1]?.targetAlias. -/
def prevTargetAliasOf (game : Game) : Option String :=
  (game.rounds.getLast?).map (fun r => r.targetAlias)

/-- prevTargetAlias ? targetPool.filter(p => p.alias !== prevTargetAlias) : targetPool.
The JS truthiness test is false both for undefined and for the empty string. -/
def filteredPoolOf (game : Game) : List Player :=
  match prevTargetAliasOf game with
  | some a =>
    if a ≠ "" then (targetPoolOf game).filter (fun p => p.playerAlias != a)
    else targetPoolOf game
  | none => targetPoolOf game

/-- filteredPool.length > 0 ? filteredPool : targetPool. -/
def finalPoolOf (game : Game) : List Player :=
  if 0 < (filteredPoolOf game).length then filteredPoolOf game else targetPoolOf game

/-- startRoundForGame: null when the game has no players at all; otherwise a
new SUBMITTING round whose target is drawn from the final pool, with the
alive players snapshotted as participants. idx and pidx are the two
Math.random draws (target pick, prompt template pick). -/
def startRoundForGame (idx pidx : Nat) (game : Game) (roundType : RoundType) :
    Option (Game × Round) :=
  let alivePlayers := game.players.filter (fun p => p.alive)
  if game.players.length = 0 then none
  else
    match pickRandom idx (finalPoolOf game) with
    | none => none
    | some targetPlayer =>
      let nextRoundNumber := game.roundNumber + 1
      let round : Round :=
        { roundNumber := nextRoundNumber, roundType := roundType,
          targetAlias := targetPlayer.playerAlias,
          roundPrompt := some (generateRoundPrompt pidx targetPlayer.playerAlias),
          status := RoundStatus.SUBMITTING, submissions := [], votes := [],
          participantIds := alivePlayers.map (fun p => p.playerId),
          eliminatedPlayerIds := [] }
      some ({ game with roundNumber := nextRoundNumber,
                        rounds := game.rounds ++ [round],
                        state := GameState.ROUND_SUBMITTING }, round)

-- === advanceAfterResults, gameService.ts lines 299-346 ===

def advanceAfterResults (idx pidx : Nat) (game : Game) : Game :=
  let aliveHumans := (game.players.filter (fun p => p.alive && !p.isAI)).length
  let aliveAIs := (game.players.filter (fun p => p.alive && p.isAI)).length
  if aliveAIs = 1 ∧ aliveHumans = 1 then
    { game with winner := some Winner.AIS, state := GameState.GAME_OVER }
  else if aliveHumans = 0 then
    { game with winner := some Winner.AIS, state := GameState.GAME_OVER }
  else if aliveAIs = 0 then
    { game with winner := some Winner.HUMANS, state := GameState.GAME_OVER }
  else if aliveAIs > aliveHumans then
    { game with winner := some Winner.AIS, state := GameState.GAME_OVER }
  else
    match startRoundForGame idx pidx game RoundType.TEXT with
    | some gr => gr.1
    | none => { game with state := GameState.GAME_OVER }

/-- The post-results advancement as the specification words it: exactly one
alive agent and one alive human yield an agents win; zero alive humans an
agents win; zero alive agents a humans win; alive agents strictly
outnumbering alive humans an agents win; otherwise a new round starts, and
when no round can be started the session goes to GAME_OVER with the winner
field left unset. -/
def advanceSpecClaim (idx pidx : Nat) (game : Game) : Game :=
  let agents := game.players.countP (fun p => p.alive && p.isAI)
  let humans := game.players.countP (fun p => p.alive && !p.isAI)
  if agents = 1 ∧ humans = 1 then
    { game with winner := some Winner.AIS, state := GameState.GAME_OVER }
  else if humans = 0 then
    { game with winner := some Winner.AIS, state := GameState.GAME_OVER }
  else if agents = 0 then
    { game with winner := some Winner.HUMANS, state := GameState.GAME_OVER }
  else if humans < agents then
    { game with winner := some Winner.AIS, state := GameState.GAME_OVER }
  else
    match startRoundForGame idx pidx game RoundType.TEXT with
    | some gr => gr.1
    | none => { game with state := GameState.GAME_OVER }

/-- C3. The code's post-results advancement agrees with the specification's
win-condition priority order for every game state and every random draw,
including the fallback that ends the session without setting a winner when
no round can be started. -/
theorem advance_after_results_matches_spec (idx pidx : Nat) (game : Game) :
    advanceAfterResults idx pidx game = advanceSpecClaim idx pidx game := by
  simp only [advanceAfterResults, advanceSpecClaim, List.countP_eq_length_filter,
    gt_iff_lt]

-- === C8: round target selection ===

theorem pickRandom_mem (idx : Nat) (arr : List α) (hne : arr ≠ []) :
    ∃ t, pickRandom idx arr = some t ∧ t ∈ arr := by
  match arr with
  | [] => exact absurd rfl hne
  | a :: as =>
    refine ⟨(a :: as).getD idx a, rfl, ?_⟩
    rw [List.getD_eq_getD_get?]
    match h : (a :: as).get? idx with
    | some x =>
      have := List.get?_mem h
      simpa [h] using this
    | none => simp [h, List.mem_cons_self]

/-- The round record built by startRoundForGame for target player t. -/
def builtRound (game : Game) (rt : RoundType) (pidx : Nat) (t : Player) : Round :=
  { roundNumber := game.roundNumber + 1, roundType := rt,
    targetAlias := t.playerAlias,
    roundPrompt := some (generateRoundPrompt pidx t.playerAlias),
    status := RoundStatus.SUBMITTING, submissions := [], votes := [],
    participantIds := (game.players.filter (fun p => p.alive)).map (fun p => p.playerId),
    eliminatedPlayerIds := [] }

/-- The game record after startRoundForGame appends the new round. -/
def builtGame (game : Game) (rt : RoundType) (pidx : Nat) (t : Player) : Game :=
  { game with roundNumber := game.roundNumber + 1,
              rounds := game.rounds ++ [builtRound game rt pidx t],
              state := GameState.ROUND_SUBMITTING }

theorem filteredPoolOf_some (game : Game) (a : String)
    (hp : prevTargetAliasOf game = some a) :
    filteredPoolOf game =
      if a ≠ "" then (targetPoolOf game).filter (fun p => p.playerAlias != a)
      else targetPoolOf game := by
  unfold filteredPoolOf
  rw [hp]

theorem filteredPoolOf_none (game : Game) (hp : prevTargetAliasOf game = none) :
    filteredPoolOf game = targetPoolOf game := by
  unfold filteredPoolOf
  rw [hp]

/-- C8. Starting a round always succeeds on a nonempty roster, the target is
drawn from the human players (falling back to the full roster when no human
exists), and whenever the previous round's target alias is a nonempty string
and the pool holds an alternative alias, the new target alias differs from
the previous one. -/
theorem round_target_selection (idx pidx : Nat) (game : Game) (rt : RoundType)
    (hplayers : game.players ≠ [])
    (hprev : ∀ a, prevTargetAliasOf game = some a → a ≠ "") :
    ∃ g2 r, startRoundForGame idx pidx game rt = some (g2, r) ∧
      r.targetAlias ∈ ((if humanPlayersOf game = [] then game.players
                        else humanPlayersOf game).map (fun p => p.playerAlias)) ∧
      (∀ a, prevTargetAliasOf game = some a →
        (∃ p, p ∈ (if humanPlayersOf game = [] then game.players
                   else humanPlayersOf game) ∧ p.playerAlias ≠ a) →
        r.targetAlias ≠ a) := by
  have hpool_eq : targetPoolOf game
      = (if humanPlayersOf game = [] then game.players else humanPlayersOf game) := by
    by_cases h : humanPlayersOf game = []
    · simp [targetPoolOf, h]
    · have : 0 < (humanPlayersOf game).length := List.length_pos.mpr h
      simp [targetPoolOf, h, this]
  have hpoolne : targetPoolOf game ≠ [] := by
    rw [hpool_eq]
    by_cases h : humanPlayersOf game = [] <;> simp [h, hplayers]
  have hfinalne : finalPoolOf game ≠ [] := by
    unfold finalPoolOf
    by_cases h : 0 < (filteredPoolOf game).length
    · simpa [h] using List.length_pos.mp h
    · simpa [h] using hpoolne
  have hfinal_sub : ∀ x ∈ finalPoolOf game, x ∈ targetPoolOf game := by
    intro x hx
    unfold finalPoolOf at hx
    by_cases h : 0 < (filteredPoolOf game).length
    · rw [if_pos h] at hx
      match hp : prevTargetAliasOf game with
      | some a =>
        rw [filteredPoolOf_some game a hp] at hx
        by_cases ha : a ≠ ""
        · rw [if_pos ha] at hx
          exact (List.mem_filter.mp hx).1
        · rwa [if_neg ha] at hx
      | none =>
        rwa [filteredPoolOf_none game hp] at hx
    · rwa [if_neg h] at hx
  obtain ⟨t, hpick, htmem⟩ := pickRandom_mem idx (finalPoolOf game) hfinalne
  have hlen : ¬ game.players.length = 0 := by
    simpa [List.length_eq_zero] using hplayers
  refine ⟨builtGame game rt pidx t, builtRound game rt pidx t, ?_, ?_, ?_⟩
  · simp only [startRoundForGame, if_neg hlen, hpick, builtGame, builtRound]
  · show t.playerAlias ∈ _
    rw [← hpool_eq]
    exact List.mem_map_of_mem (fun p => p.playerAlias) (hfinal_sub t htmem)
  · rintro a hpa ⟨p, hpmem, hpalias⟩
    show t.playerAlias ≠ a
    have ha : a ≠ "" := hprev a hpa
    have hfiltered : filteredPoolOf game
        = (targetPoolOf game).filter (fun p => p.playerAlias != a) := by
      rw [filteredPoolOf_some game a hpa, if_pos ha]
    have hpfilter : p ∈ (targetPoolOf game).filter (fun p => p.playerAlias != a) := by
      refine List.mem_filter.mpr ⟨?_, ?_⟩
      · rw [hpool_eq]; exact hpmem
      · simpa using hpalias
    have hflen : 0 < (filteredPoolOf game).length := by
      rw [hfiltered]
      exact List.length_pos.mpr (List.ne_nil_of_mem hpfilter)
    have hfinal : finalPoolOf game
        = (targetPoolOf game).filter (fun p => p.playerAlias != a) := by
      unfold finalPoolOf
      rw [if_pos hflen, hfiltered]
    rw [hfinal] at htmem
    have := (List.mem_filter.mp htmem).2
    simpa using this

def wGame : Game :=
  { code := "WTNS", state := GameState.ROUND_RESULTS, roundNumber := 1,
    hostPlayerId := "p1",
    players := [{ playerId := "p1", playerAlias := "A", colorId := "c1",
                  alive := true, connected := true, isAI := false,
                  aiData := none, score := 0, missedSubmissions := 0 },
                { playerId := "p2", playerAlias := "B", colorId := "c2",
                  alive := true, connected := true, isAI := false,
                  aiData := none, score := 0, missedSubmissions := 0 }],
    rounds := [{ roundNumber := 1, roundType := RoundType.TEXT, targetAlias := "A",
                 roundPrompt := none, status := RoundStatus.COMPLETED,
                 submissions := [], votes := [], participantIds := ["p1", "p2"],
                 eliminatedPlayerIds := [] }],
    winner := none, aiTeamMemory := [] }

theorem round_target_selection_witness :
    ∃ g2 r, startRoundForGame 0 0 wGame RoundType.TEXT = some (g2, r) ∧
      r.targetAlias ∈ ((if humanPlayersOf wGame = [] then wGame.players
                        else humanPlayersOf wGame).map (fun p => p.playerAlias)) ∧
      (∀ a, prevTargetAliasOf wGame = some a →
        (∃ p, p ∈ (if humanPlayersOf wGame = [] then wGame.players
                   else humanPlayersOf wGame) ∧ p.playerAlias ≠ a) →
        r.targetAlias ≠ a) := by
  have hprev : ∀ a, prevTargetAliasOf wGame = some a → a ≠ "" := by
    intro a h
    have hp : prevTargetAliasOf wGame = some "A" := by decide
    rw [hp] at h
    cases h
    decide
  exact round_target_selection 0 0 wGame RoundType.TEXT (by decide) hprev

-- === enterVotingPhase, gameService.ts lines 97-131 ===

/-- The auto-filled empty placeholder for a participant without a submission:
missing-(code)-(pid)-(roundNumber)-(randomUUID). -/
def placeholderFor (code : String) (rn : Nat) (uuid : String) (pid : String) : Submission :=
  { submissionId := "missing-" ++ code ++ "-" ++ pid ++ "-" ++ toString rn ++ "-" ++ uuid,
    playerId := pid, content := "", roundNumber := rn, submittedAt := none }

/-- The placeholder loop over round.participantIds; the membership test reads
the submissions list as it grows, exactly like the in-place push. -/
def fillPlaceholders (code : String) (rn : Nat) (uuid : String → String)
    (pids : List String) (subs : List Submission) : List Submission :=
  pids.foldl (fun acc pid =>
    if acc.any (fun s => s.playerId == pid) then acc
    else acc ++ [placeholderFor code rn (uuid pid) pid]) subs

/-- enterVotingPhase: mark the round VOTING, the game ROUND_VOTING, and give
every participant without a submission an empty placeholder. The vote timer
and AI vote scheduling are external effects. uuid supplies the randomUUID
value for each placeholder. -/
def enterVotingPhase (game : Game) (round : Round) (uuid : String → String) :
    Game × Round :=
  let round1 := { round with status := RoundStatus.VOTING }
  let game1 := { game with state := GameState.ROUND_VOTING }
  let round2 := { round1 with
    submissions := fillPlaceholders game1.code round1.roundNumber uuid
      round1.participantIds round1.submissions }
  (game1, round2)

theorem fillPlaceholders_mono (code : String) (rn : Nat) (uuid : String → String)
    (pids : List String) (subs : List Submission) (x : Submission) (hx : x ∈ subs) :
    x ∈ fillPlaceholders code rn uuid pids subs := by
  induction pids generalizing subs with
  | nil => simpa [fillPlaceholders] using hx
  | cons p0 rest ih =>
    by_cases h : ∃ s ∈ subs, s.playerId = p0
    · simpa [fillPlaceholders, h] using ih subs hx
    · simpa [fillPlaceholders, h] using
        ih (subs ++ [placeholderFor code rn (uuid p0) p0]) (List.mem_append_left _ hx)

theorem fillPlaceholders_covers (code : String) (rn : Nat) (uuid : String → String)
    (pids : List String) (subs : List Submission) (pid : String) (hmem : pid ∈ pids) :
    ∃ s ∈ fillPlaceholders code rn uuid pids subs, s.playerId = pid := by
  induction pids generalizing subs with
  | nil => cases hmem
  | cons p0 rest ih =>
    rcases List.mem_cons.mp hmem with hh | ht
    · subst hh
      by_cases h : ∃ s ∈ subs, s.playerId = pid
      · have h2 := h
        obtain ⟨s, hs, hsp⟩ := h2
        refine ⟨s, ?_, hsp⟩
        simpa [fillPlaceholders, h] using
          fillPlaceholders_mono code rn uuid rest subs s hs
      · refine ⟨placeholderFor code rn (uuid pid) pid, ?_, rfl⟩
        simpa [fillPlaceholders, h] using
          fillPlaceholders_mono code rn uuid rest
            (subs ++ [placeholderFor code rn (uuid pid) pid])
            (placeholderFor code rn (uuid pid) pid)
            (List.mem_append_right _ (List.mem_singleton.mpr rfl))
    · by_cases h : ∃ s ∈ subs, s.playerId = p0
      · simpa [fillPlaceholders, h] using ih subs ht
      · simpa [fillPlaceholders, h] using
          ih (subs ++ [placeholderFor code rn (uuid p0) p0]) ht

/-- C6. On the transition to the voting phase, every participant listed in
round.participantIds ends up with at least one submission entry (an
auto-filled empty placeholder when they had none), the round's status is
VOTING and the session state ROUND_VOTING, so every participant remains a
votable target. -/
theorem voting_entry_gives_every_participant_a_submission
    (game : Game) (round : Round) (uuid : String → String) (pid : String)
    (hmem : pid ∈ round.participantIds) :
    (enterVotingPhase game round uuid).2.status = RoundStatus.VOTING ∧
    (enterVotingPhase game round uuid).1.state = GameState.ROUND_VOTING ∧
    ∃ s ∈ (enterVotingPhase game round uuid).2.submissions, s.playerId = pid := by
  refine ⟨rfl, rfl, ?_⟩
  exact fillPlaceholders_covers game.code round.roundNumber uuid
    round.participantIds round.submissions pid hmem

theorem voting_entry_gives_every_participant_a_submission_witness :
    (enterVotingPhase wGame
      { roundNumber := 2, roundType := RoundType.TEXT, targetAlias := "B",
        roundPrompt := none, status := RoundStatus.SUBMITTING,
        submissions := [{ submissionId := "s1", playerId := "p1", content := "hi",
                          roundNumber := 2, submittedAt := none }],
        votes := [], participantIds := ["p1", "p2"], eliminatedPlayerIds := [] }
      (fun _ => "u")).2.status = RoundStatus.VOTING ∧
    ∃ s ∈ (enterVotingPhase wGame
      { roundNumber := 2, roundType := RoundType.TEXT, targetAlias := "B",
        roundPrompt := none, status := RoundStatus.SUBMITTING,
        submissions := [{ submissionId := "s1", playerId := "p1", content := "hi",
                          roundNumber := 2, submittedAt := none }],
        votes := [], participantIds := ["p1", "p2"], eliminatedPlayerIds := [] }
      (fun _ => "u")).2.submissions, s.playerId = "p2" := by
  have h := voting_entry_gives_every_participant_a_submission wGame
    { roundNumber := 2, roundType := RoundType.TEXT, targetAlias := "B",
      roundPrompt := none, status := RoundStatus.SUBMITTING,
      submissions := [{ submissionId := "s1", playerId := "p1", content := "hi",
                        roundNumber := 2, submittedAt := none }],
      votes := [], participantIds := ["p1", "p2"], eliminatedPlayerIds := [] }
    (fun _ => "u") "p2" (by decide)
  exact ⟨h.1, h.2.2⟩

-- === The round:submit socket handler, socket.ts lines 356-439 ===

inductive SubmitOutcome where
  | accepted (submissionId : String)
  | rejected (error : String)
deriving DecidableEq

/-- payload.code?.toUpperCase(), over the character list so that it evaluates
by kernel reduction. -/
def jsToUpper (s : String) : String :=
  String.mk (s.data.map Char.toUpper)

/-- JS falsiness of an optional string field: missing or the empty string. -/
def isFalsyStr : Option String → Bool
  | none => true
  | some s => s == ""

/-- allSubmissionsIn: new Set(submissions.map(s => s.playerId)).size >=
participantIds.length. -/
def allSubmissionsIn (round : Round) : Bool :=
  decide (round.participantIds.length ≤
    ((round.submissions.map (fun s => s.playerId)).dedup).length)

/-- onSubmissionUpdated of the current gameService: returns immediately when
called without a submission argument, otherwise moves to voting once every
participant has submitted. AI notification and timers are external. -/
def onSubmissionUpdated (game : Game) (round : Round) (submission : Option Submission)
    (uuid : String → String) : Game × Round :=
  match submission with
  | none => (game, round)
  | some _ =>
    if allSubmissionsIn round then enterVotingPhase game round uuid
    else (game, round)

/-- In-place mutation of the round found by roundNumber inside game.rounds. -/
def updateRoundIn (rounds : List Round) (rn : Nat) (r2 : Round) : List Round :=
  match rounds with
  | [] => []
  | r :: rest => if r.roundNumber = rn then r2 :: rest else r :: updateRoundIn rest rn r2

/-- In-place mutation of the game found by code inside the registry. -/
def updateGameIn (games : List Game) (code : String) (g2 : Game) : List Game :=
  match games with
  | [] => []
  | g :: rest => if g.code = code then g2 :: rest else g :: updateGameIn rest code g2

/-- The submission record pushed by the round:submit handler: the object
literal carries submissionId, playerId, content and roundNumber only, so the
optional submittedAt timestamp is absent. -/
def roundSubmitRecord (uuid pid content : String) (rn : Nat) : Submission :=
  { submissionId := uuid, playerId := pid, content := content, roundNumber := rn,
    submittedAt := none }

/-- The round:submit handler over the game registry. uuid is the randomUUID
value for the new submission; uuidGen feeds any placeholder creation in the
voting transition. The handler then calls onSubmissionUpdated(game, round)
with no third argument, so the callee returns immediately. -/
def roundSubmitHandler (games : List Game) (code : Option String)
    (roundNumber : Option Nat) (playerId : Option String) (content : Option String)
    (uuid : String) (uuidGen : String → String) : List Game × SubmitOutcome :=
  let codeU := code.map jsToUpper
  if isFalsyStr codeU || roundNumber.isNone || isFalsyStr playerId || isFalsyStr content then
    (games, SubmitOutcome.rejected "code, roundNumber, playerId, content are required")
  else
    let c := codeU.getD ""
    let rn := roundNumber.getD 0
    let pid := playerId.getD ""
    let cont := content.getD ""
    match games.find? (fun g => g.code == c) with
    | none => (games, SubmitOutcome.rejected "Game not found")
    | some game =>
      match game.rounds.find? (fun r => r.roundNumber == rn) with
      | none => (games, SubmitOutcome.rejected "Round not found")
      | some round =>
        if round.status ≠ RoundStatus.SUBMITTING then
          (games, SubmitOutcome.rejected "Submissions are closed for this round")
        else
          match game.players.find? (fun p => p.playerId == pid) with
          | none => (games, SubmitOutcome.rejected "Player is not alive in this game")
          | some player =>
            if player.alive = false then
              (games, SubmitOutcome.rejected "Player is not alive in this game")
            else if pid ∉ round.participantIds then
              (games, SubmitOutcome.rejected "Player is not in this round")
            else if ∃ s ∈ round.submissions, s.playerId = pid then
              (games, SubmitOutcome.rejected "You have already submitted for this round")
            else
              let sub := roundSubmitRecord uuid pid cont rn
              let round2 := { round with submissions := round.submissions ++ [sub] }
              let game2 := { game with rounds := updateRoundIn game.rounds rn round2 }
              let gr := onSubmissionUpdated game2 round2 none uuidGen
              let game3 := { gr.1 with rounds := updateRoundIn gr.1.rounds rn gr.2 }
              (updateGameIn games c game3, SubmitOutcome.accepted uuid)

/-- A game in the submission phase for concrete handler runs. -/
def subRound : Round :=
  { roundNumber := 3, roundType := RoundType.TEXT, targetAlias := "A",
    roundPrompt := none, status := RoundStatus.SUBMITTING, submissions := [],
    votes := [], participantIds := ["p1", "p2"], eliminatedPlayerIds := [] }

def subGame : Game :=
  { code := "SUBG", state := GameState.ROUND_SUBMITTING, roundNumber := 3,
    hostPlayerId := "p1", players := wGame.players, rounds := [subRound],
    winner := none, aiTeamMemory := [] }

/-- C9. The round:submit handler stores its submission through
roundSubmitRecord, which carries no submittedAt timestamp; the speed-bonus
ranking keeps only submissions with a present timestamp, so a handler-stored
submission is never in the ranked list and can never receive one of the
fastest-three bonuses. A concrete run of the handler shows the stored record. -/
theorem socket_submission_never_gets_speed_bonus (u pid cont : String) (rn : Nat)
    (subs : List Submission) (s : Submission) :
    (roundSubmitRecord u pid cont rn).submittedAt = none ∧
    (s ∈ submissionsWithTime subs → s.submittedAt.isSome = true) ∧
    roundSubmitRecord u pid cont rn ∉ submissionsWithTime subs ∧
    (roundSubmitHandler [subGame] (some "SUBG") (some 3) (some "p1") (some "hello")
        "u1" (fun _ => "w")).2 = SubmitOutcome.accepted "u1" ∧
    (((roundSubmitHandler [subGame] (some "SUBG") (some 3) (some "p1") (some "hello")
        "u1" (fun _ => "w")).1.headD subGame).rounds.headD subRound).submissions
      = [roundSubmitRecord "u1" "p1" "hello" 3] := by
  refine ⟨rfl, ?_, ?_, ?_, ?_⟩
  · intro hs
    exact ((mem_submissionsWithTime subs s).mp hs).2.1
  · intro hmem
    have := ((mem_submissionsWithTime subs _).mp hmem).2.1
    simp [roundSubmitRecord] at this
  · decide
  · decide

theorem socket_submission_never_gets_speed_bonus_witness :
    (roundSubmitRecord "u1" "p1" "hello" 1).submittedAt = none ∧
    exSA.submittedAt.isSome = true ∧
    roundSubmitRecord "u1" "p1" "hello" 1 ∉ submissionsWithTime exSubs := by
  have h := socket_submission_never_gets_speed_bonus "u1" "p1" "hello" 1 exSubs exSA
  exact ⟨h.1, h.2.1 (by decide), h.2.2.1⟩

/-- C10. The round:submit handler rejects an empty-string content as the
missing-required-fields validation error with the registry untouched, while a
whitespace-only content passes that validation (shown both in general on the
falsiness test and on a concrete accepting run); finalization classifies by
trimmed content, so the scoring step charges the whitespace submission the
flat penalty and increments its author's missed-submission counter instead of
awarding the participation bonus. -/
theorem whitespace_submission_scored_as_empty
    (games : List Game) (code : Option String) (rn : Option Nat) (pid : Option String)
    (u : String) (ug : String → String) (w : String) (players : List Player)
    (s : Submission) (q : Player)
    (hw : w ≠ "") (hws : jsTrim w = "")
    (hs : s.content = w) (hq : findPlayer players s.playerId = some q) :
    roundSubmitHandler games code rn pid (some "") u ug
      = (games, SubmitOutcome.rejected "code, roundNumber, playerId, content are required") ∧
    isFalsyStr (some w) = false ∧
    (roundSubmitHandler [subGame] (some "SUBG") (some 3) (some "p1") (some " ")
        "u1" (fun _ => "w")).2 = SubmitOutcome.accepted "u1" ∧
    findPlayer (participationStep players s) s.playerId
      = some { q with missedSubmissions := q.missedSubmissions + 1,
                      score := q.score - NO_SUBMISSION_PENALTY } := by
  refine ⟨?_, ?_, ?_, ?_⟩
  · simp [roundSubmitHandler, isFalsyStr]
  · simp [isFalsyStr, hw]
  · decide
  · have hlen0 : (jsTrim s.content).length = 0 := by
      rw [hs, hws]
      rfl
    rw [findPlayer_participationStep_eq players s q hq, if_pos hlen0]

theorem whitespace_submission_scored_as_empty_witness :
    roundSubmitHandler [subGame] (some "SUBG") (some 3) (some "p1") (some "") "u9" (fun _ => "w")
      = ([subGame], SubmitOutcome.rejected "code, roundNumber, playerId, content are required") ∧
    isFalsyStr (some " ") = false ∧
    findPlayer (participationStep [exPA]
        { submissionId := "sw", playerId := "pA", content := " ", roundNumber := 1,
          submittedAt := none })
      "pA" = some { exPA with missedSubmissions := exPA.missedSubmissions + 1,
                              score := exPA.score - NO_SUBMISSION_PENALTY } := by
  have h := whitespace_submission_scored_as_empty [subGame] (some "SUBG") (some 3)
    (some "p1") "u9" (fun _ => "w") " " [exPA]
    { submissionId := "sw", playerId := "pA", content := " ", roundNumber := 1,
      submittedAt := none }
    exPA (by decide) (by decide) (by decide) (by decide)
  exact ⟨h.1, h.2.1, h.2.2.2⟩

-- === Toxicity filtering and caching, aiPlayer.ts lines 1601-1710 ===

/-- The sanitizer service reply: {is_toxic, detailed_scores}; a transport or
parse failure is the none case of Option ToxResponse (the source catches the
exception and returns null). -/
structure ToxResponse where
  is_toxic : Bool
  detailed_scores : List (String × Rat)
deriving DecidableEq

/-- Two-decimal rendering of a score, the analogue of toFixed(2). -/
def fmtScore (q : Rat) : String :=
  let n : Int := round (q * 100)
  let fp := (n % 100).natAbs
  toString (n / 100) ++ "." ++ (if fp < 10 then "0" ++ toString fp else toString fp)

/-- Stable descending insertion by score, the comparator (a, b) => b.2 - a.2. -/
def insertScoreDesc (a : String × Rat) : List (String × Rat) → List (String × Rat)
  | [] => [a]
  | b :: bs => if a.2 ≤ b.2 then b :: insertScoreDesc a bs else a :: b :: bs

def sortScoresDesc (l : List (String × Rat)) : List (String × Rat) :=
  l.foldl (fun acc a => insertScoreDesc a acc) []

/-- pickTopCategories with the default threshold 0.5 and at most 3 entries:
drop the non_toxic key, sort descending, keep scores at or above the
threshold, take three, render as "category score". -/
def pickTopCategories (scores : List (String × Rat)) : List String :=
  (((sortScoresDesc (scores.filter (fun e => e.1 != "non_toxic"))).filter
      (fun e => (1 : Rat)/2 ≤ e.2)).take 3).map (fun e => e.1 ++ " " ++ fmtScore e.2)

/-- buildReplacement: a templated placeholder built from the top offending
categories, or from the reason text (with "content hidden" for a missing or
falsy reason). It never takes the assessed text as input. -/
def buildReplacement (scores : Option (List (String × Rat))) (reason : Option String) :
    String × String :=
  let cats := match scores with
    | some sc => pickTopCategories sc
    | none => []
  let summary :=
    if 0 < cats.length then String.intercalate ", " cats
    else match reason with
      | some r => if r ≠ "" then r else "content hidden"
      | none => "content hidden"
  ("(content replaced due to toxicity: " ++ summary ++ ")", summary)

def lookupCache (cache : List (String × ToxicityAssessment)) (k : String) :
    Option ToxicityAssessment :=
  (cache.find? (fun e => e.1 == k)).map (fun e => e.2)

/-- cache[key] = assessment on a JS object: replace the existing entry in
place or append a new one. -/
def setCache (cache : List (String × ToxicityAssessment)) (k : String)
    (v : ToxicityAssessment) : List (String × ToxicityAssessment) :=
  if cache.any (fun e => e.1 == k) then
    cache.map (fun e => if e.1 == k then (k, v) else e)
  else cache ++ [(k, v)]

/-- The assessment assembled by assessAndCache when the text is not cached:
failure is treated as toxic with a fixed unavailability note; a toxic verdict
yields the category-based placeholder; a non-toxic verdict keeps the original
text. The summary field is included only when the summary string is truthy. -/
def freshAssessment (original : String) (resp : Option ToxResponse) : ToxicityAssessment :=
  match resp with
  | none =>
    let rs := buildReplacement none (some "toxicity model unavailable")
    { isToxic := true, scores := [], replacedText := rs.1,
      summary := if rs.2 ≠ "" then some rs.2 else none }
  | some r =>
    if r.is_toxic then
      let rs := buildReplacement (some r.detailed_scores) none
      { isToxic := true, scores := r.detailed_scores, replacedText := rs.1,
        summary := if rs.2 ≠ "" then some rs.2 else none }
    else
      { isToxic := false, scores := r.detailed_scores, replacedText := original,
        summary := none }

/-- assessAndCache: return the cached assessment when present, otherwise
build a fresh one and store it under the original text. -/
def assessAndCache (mem : AIMemory) (original : String) (resp : Option ToxResponse) :
    AIMemory × ToxicityAssessment :=
  match lookupCache mem.toxicityCache original with
  | some a => (mem, a)
  | none =>
    let a := freshAssessment original resp
    ({ mem with toxicityCache := setCache mem.toxicityCache original a }, a)

def emptyAIMemory : AIMemory :=
  { kickedPlayers := [], roundsSummary := [], notes := [], toxicityCache := [] }

/-- ensureTeamMem: fetch or create the per-team shared memory. -/
def ensureTeamMem (game : Game) (teamId : String) : Game × TeamMemory :=
  match game.aiTeamMemory.find? (fun e => e.1 == teamId) with
  | some e => (game, e.2)
  | none =>
    let tm : TeamMemory :=
      { kickedPlayers := [], roundsSummary := [], notes := [],
        toxicityCache := [], roundPlans := [] }
    ({ game with aiTeamMemory := game.aiTeamMemory ++ [(teamId, tm)] }, tm)

/-- Write the mutated team memory back into the registry entry. -/
def setTeamMem (game : Game) (teamId : String) (tm : TeamMemory) : Game :=
  { game with aiTeamMemory :=
      game.aiTeamMemory.map (fun e => if e.1 == teamId then (teamId, tm) else e) }

/-- ensureMem: fetch or create the per-agent private memory. -/
def ensureMem (p : Player) : Player × AIMemory :=
  match p.aiData with
  | some d =>
    match d.memory with
    | some m => (p, m)
    | none => ({ p with aiData := some { d with memory := some emptyAIMemory } },
               emptyAIMemory)
  | none =>
    ({ p with aiData := some { apiKey := none, teamId := none,
                               memory := some emptyAIMemory } },
     emptyAIMemory)

/-- mem.toxicityCache[original] = assessment on the agent's private memory. -/
def setAgentCache (p : Player) (k : String) (v : ToxicityAssessment) : Player :=
  match p.aiData with
  | some d =>
    match d.memory with
    | some m =>
      { p with
        aiData := some { d with
          memory := some { m with toxicityCache := setCache m.toxicityCache k v } } }
    | none => p
  | none => p

/-- aiPlayer.aiData?.teamId ?? "impostors". -/
def teamIdOf (p : Player) : String :=
  (p.aiData.bind (fun d => d.teamId)).getD "impostors"

structure SanitizeResult where
  game : Game
  player : Player
  text : String
  sanitized : Bool

/-- sanitizeContentForAI: team cache first; on a hit mirror the assessment
into the agent cache; on a miss assess, store at both scopes, and return the
replaced text exactly when the assessment is toxic. -/
def sanitizeContentForAI (game : Game) (aiPlayer : Player) (original : String)
    (resp : Option ToxResponse) : SanitizeResult :=
  let teamId := teamIdOf aiPlayer
  let gt := ensureTeamMem game teamId
  let pm := ensureMem aiPlayer
  match lookupCache gt.2.toxicityCache original with
  | some existing =>
    { game := gt.1, player := setAgentCache pm.1 original existing,
      text := if existing.isToxic then existing.replacedText else original,
      sanitized := existing.isToxic }
  | none =>
    let ma := assessAndCache gt.2.toAIMemory original resp
    let tm2 : TeamMemory := { toAIMemory := ma.1, roundPlans := gt.2.roundPlans }
    { game := setTeamMem gt.1 teamId tm2,
      player := setAgentCache pm.1 original ma.2,
      text := if ma.2.isToxic then ma.2.replacedText else original,
      sanitized := ma.2.isToxic }

/-- The team-scope toxicity cache as stored in the session record. -/
def teamCacheOf (game : Game) (teamId : String) : List (String × ToxicityAssessment) :=
  ((game.aiTeamMemory.find? (fun e => e.1 == teamId)).map
    (fun e => e.2.toxicityCache)).getD []

/-- The agent-scope toxicity cache as stored on the player record. -/
def agentCacheOf (p : Player) : List (String × ToxicityAssessment) :=
  ((p.aiData.bind (fun d => d.memory)).map (fun m => m.toxicityCache)).getD []

theorem lookupCache_map_set (c : List (String × ToxicityAssessment)) (k : String)
    (v : ToxicityAssessment) (h : c.any (fun e => e.1 == k) = true) :
    lookupCache (c.map (fun e => if e.1 == k then (k, v) else e)) k = some v := by
  induction c with
  | nil => cases h
  | cons e rest ih =>
    rw [List.map_cons]
    by_cases he : e.1 = k
    · have he1 : (e.1 == k) = true := beq_iff_eq.mpr he
      rw [if_pos he1]
      unfold lookupCache
      rw [List.find?_cons_of_pos _ (by simp)]
      rfl
    · have he2 : (e.1 == k) = false := beq_eq_false_iff_ne.mpr he
      rw [List.any_cons] at h
      have hrest : rest.any (fun e => e.1 == k) = true := by
        rcases Bool.or_eq_true_iff.mp h with hl | hr
        · exact absurd hl (by simp [he2])
        · exact hr
      rw [if_neg (by simp [he2])]
      unfold lookupCache
      rw [List.find?_cons_of_neg _ (by simp [he2])]
      exact ih hrest

theorem lookupCache_append_miss (c : List (String × ToxicityAssessment)) (k : String)
    (v : ToxicityAssessment) (h : c.any (fun e => e.1 == k) = false) :
    lookupCache (c ++ [(k, v)]) k = some v := by
  induction c with
  | nil =>
    unfold lookupCache
    rw [List.nil_append, List.find?_cons_of_pos _ (by simp)]
    rfl
  | cons e rest ih =>
    rw [List.any_cons] at h
    rcases Bool.or_eq_false_iff.mp h with ⟨he2, hrest⟩
    rw [List.cons_append]
    unfold lookupCache
    rw [List.find?_cons_of_neg _ (by simp [he2])]
    exact ih hrest

theorem lookupCache_setCache (c : List (String × ToxicityAssessment)) (k : String)
    (v : ToxicityAssessment) : lookupCache (setCache c k v) k = some v := by
  by_cases h : c.any (fun e => e.1 == k) = true
  · rw [setCache, if_pos h]
    exact lookupCache_map_set c k v h
  · rw [setCache, if_neg h]
    exact lookupCache_append_miss c k v (Bool.not_eq_true _ ▸ h)

theorem ensureTeamMem_has_entry (g : Game) (tid : String) :
    ∃ e ∈ (ensureTeamMem g tid).1.aiTeamMemory, e.1 = tid := by
  match hf : g.aiTeamMemory.find? (fun e => e.1 == tid) with
  | some e =>
    have hp := List.find?_some hf
    refine ⟨e, ?_, eq_of_beq hp⟩
    simp only [ensureTeamMem, hf]
    exact List.mem_of_find?_eq_some hf
  | none =>
    refine ⟨(tid, { kickedPlayers := [], roundsSummary := [], notes := [],
                    toxicityCache := [], roundPlans := [] }), ?_, rfl⟩
    simp only [ensureTeamMem, hf]
    exact List.mem_append_right _ (List.mem_singleton.mpr rfl)

theorem find_map_set (l : List (String × TeamMemory)) (tid : String) (tm : TeamMemory)
    (h : ∃ e ∈ l, e.1 = tid) :
    (l.map (fun e => if e.1 == tid then (tid, tm) else e)).find? (fun e => e.1 == tid)
      = some (tid, tm) := by
  induction l with
  | nil =>
    rcases h with ⟨e0, he0, _⟩
    cases he0
  | cons e rest ih =>
    rcases h with ⟨e0, he0, hid⟩
    rw [List.map_cons]
    by_cases he : e.1 = tid
    · have he1 : (e.1 == tid) = true := beq_iff_eq.mpr he
      rw [if_pos he1, List.find?_cons_of_pos _ (by simp)]
    · have he2 : (e.1 == tid) = false := beq_eq_false_iff_ne.mpr he
      rw [if_neg (by simp [he2]), List.find?_cons_of_neg _ (by simp [he2])]
      rcases List.mem_cons.mp he0 with hh | ht
      · exact absurd (hh ▸ hid) he
      · exact ih ⟨e0, ht, hid⟩

theorem find_setTeamMem (g : Game) (tid : String) (tm : TeamMemory)
    (h : ∃ e ∈ g.aiTeamMemory, e.1 = tid) :
    (setTeamMem g tid tm).aiTeamMemory.find? (fun e => e.1 == tid) = some (tid, tm) := by
  unfold setTeamMem
  exact find_map_set g.aiTeamMemory tid tm h

theorem agent_lookup_after_set (p : Player) (k : String) (v : ToxicityAssessment) :
    lookupCache (agentCacheOf (setAgentCache (ensureMem p).1 k v)) k = some v := by
  match hd : p.aiData with
  | none =>
    simp [ensureMem, hd, setAgentCache, agentCacheOf, lookupCache_setCache]
  | some d =>
    match hm : d.memory with
    | none => simp [ensureMem, hd, hm, setAgentCache, agentCacheOf, lookupCache_setCache]
    | some m => simp [ensureMem, hd, hm, setAgentCache, agentCacheOf, lookupCache_setCache]

/-- C7. For a text that is not yet cached, the sanitizer stores the fresh
assessment under the original text at both the team scope and the agent
scope; on a service failure the text becomes the fixed unavailability
placeholder, on a toxic verdict the category-template placeholder built from
the scores alone (so it is identical for every assessed text and never
incorporates the original), and on a non-toxic verdict the original text is
returned unchanged. -/
theorem sanitizer_toxic_failure_and_cache (game : Game) (p : Player)
    (original : String) (resp : Option ToxResponse)
    (hmiss : lookupCache (ensureTeamMem game (teamIdOf p)).2.toxicityCache original = none) :
    lookupCache (teamCacheOf (sanitizeContentForAI game p original resp).game (teamIdOf p))
        original = some (freshAssessment original resp) ∧
    lookupCache (agentCacheOf (sanitizeContentForAI game p original resp).player)
        original = some (freshAssessment original resp) ∧
    (match resp with
     | none =>
       (sanitizeContentForAI game p original resp).text
         = "(content replaced due to toxicity: toxicity model unavailable)" ∧
       (sanitizeContentForAI game p original resp).sanitized = true ∧
       (∀ other : String, (freshAssessment other (none : Option ToxResponse)).replacedText
         = (sanitizeContentForAI game p original resp).text)
     | some r =>
       if r.is_toxic = true then
         (sanitizeContentForAI game p original resp).text
           = (buildReplacement (some r.detailed_scores) none).1 ∧
         (sanitizeContentForAI game p original resp).sanitized = true ∧
         (∀ other : String, (freshAssessment other (some r)).replacedText
           = (sanitizeContentForAI game p original resp).text)
       else
         (sanitizeContentForAI game p original resp).text = original ∧
         (sanitizeContentForAI game p original resp).sanitized = false) := by
  have hmiss2 : lookupCache (ensureTeamMem game (teamIdOf p)).2.toAIMemory.toxicityCache
      original = none := hmiss
  have hres : sanitizeContentForAI game p original resp =
      { game := setTeamMem (ensureTeamMem game (teamIdOf p)).1 (teamIdOf p)
          { toAIMemory :=
              { (ensureTeamMem game (teamIdOf p)).2.toAIMemory with
                toxicityCache :=
                  setCache (ensureTeamMem game (teamIdOf p)).2.toAIMemory.toxicityCache
                    original (freshAssessment original resp) },
            roundPlans := (ensureTeamMem game (teamIdOf p)).2.roundPlans },
        player := setAgentCache (ensureMem p).1 original (freshAssessment original resp),
        text := if (freshAssessment original resp).isToxic
                then (freshAssessment original resp).replacedText else original,
        sanitized := (freshAssessment original resp).isToxic } := by
    rw [sanitizeContentForAI]
    simp only [hmiss]
    rw [assessAndCache]
    simp only [hmiss2]
  refine ⟨?_, ?_, ?_⟩
  · rw [hres]
    have hentry := ensureTeamMem_has_entry game (teamIdOf p)
    unfold teamCacheOf
    rw [find_setTeamMem _ _ _ hentry]
    exact lookupCache_setCache _ _ _
  · rw [hres]
    exact agent_lookup_after_set p original (freshAssessment original resp)
  · match resp with
    | none =>
      refine ⟨?_, ?_, ?_⟩
      · rw [hres]; rfl
      · rw [hres]; rfl
      · intro other; rw [hres]; rfl
    | some r =>
      by_cases hr : r.is_toxic = true
      · simp only [hr, if_pos]
        refine ⟨?_, ?_, ?_⟩
        · rw [hres]; simp [freshAssessment, hr]
        · rw [hres]; simp [freshAssessment, hr]
        · intro other; rw [hres]; simp [freshAssessment, hr]
      · simp only [hr, if_neg]
        have hr2 : r.is_toxic = false := by
          cases hb : r.is_toxic with
          | true => exact absurd hb hr
          | false => rfl
        refine ⟨?_, ?_⟩
        · rw [hres]; simp [freshAssessment, hr2]
        · rw [hres]; simp [freshAssessment, hr2]

theorem sanitizer_toxic_failure_and_cache_witness :
    lookupCache (teamCacheOf (sanitizeContentForAI wGame exPA "hello" none).game
        (teamIdOf exPA)) "hello" = some (freshAssessment "hello" none) ∧
    (sanitizeContentForAI wGame exPA "hello" none).text
      = "(content replaced due to toxicity: toxicity model unavailable)" ∧
    (sanitizeContentForAI wGame exPA "hello" none).sanitized = true := by
  have h := sanitizer_toxic_failure_and_cache wGame exPA "hello" none (by decide)
  exact ⟨h.1, h.2.2.1, h.2.2.2.1⟩

-- === Agent roster reconciliation (spec-modelled) ===

/-- Modelled from the spec: the AI-aware game:start and game:restart socket
handlers that size the agent roster are not present under src (the socket.ts
in the tree is an earlier iteration that never creates agents). Spec section
4.3: "the number of agents is a step function of human count (0 agents for
at most 1 human; 1 for 2 humans; 2 for 3 to 4 humans; 3 for 5 or more)". -/
def desiredAgentCount (humans : Nat) : Nat :=
  if humans ≤ 1 then 0
  else if humans = 2 then 1
  else if humans ≤ 4 then 2
  else 3

/-- Modelled from the spec: a freshly created agent player (alive, flagged
as AI, on the shared impostor team). -/
def mkAgent (i : Nat) : Player :=
  { playerId := "agent-" ++ toString i, playerAlias := "Agent " ++ toString i,
    colorId := "", alive := true, connected := true, isAI := true,
    aiData := some { apiKey := none, teamId := some "impostors", memory := none },
    score := 0, missedSubmissions := 0 }

/-- Modelled from the spec: reconcile the roster "by adding or removing
agents as needed" so that the number of agents matches the step function of
the human count; humans are never touched. -/
def reconcileAgentRoster (players : List Player) : List Player :=
  let humans := players.filter (fun p => !p.isAI)
  let agents := players.filter (fun p => p.isAI)
  let target := desiredAgentCount humans.length
  humans ++ agents.take target ++ (List.range (target - agents.length)).map mkAgent

theorem filter_all_true (q : Player → Bool) (l : List Player)
    (h : ∀ p ∈ l, q p = true) : l.filter q = l := by
  induction l with
  | nil => rfl
  | cons p rest ih =>
    have hp : q p = true := h p (List.mem_cons_self p rest)
    have hrest : ∀ p ∈ rest, q p = true := fun p hx => h p (List.mem_cons_of_mem _ hx)
    simp [List.filter_cons, hp, ih hrest]

theorem filter_all_false (q : Player → Bool) (l : List Player)
    (h : ∀ p ∈ l, q p = false) : l.filter q = [] := by
  induction l with
  | nil => rfl
  | cons p rest ih =>
    have hp : q p = false := h p (List.mem_cons_self p rest)
    have hrest : ∀ p ∈ rest, q p = false := fun p hx => h p (List.mem_cons_of_mem _ hx)
    simp [List.filter_cons, hp, ih hrest]

/-- C5. After reconciliation the number of agents equals the step function of
the human count; the human roster is unchanged; and the step function takes
the values 0, 0, 1, 2, 2 for 0 to 4 humans and 3 for five or more. -/
theorem agent_roster_step_function (players : List Player) (h : Nat) (h5 : 5 ≤ h) :
    ((reconcileAgentRoster players).filter (fun p => p.isAI)).length
      = desiredAgentCount ((players.filter (fun p => !p.isAI)).length) ∧
    (reconcileAgentRoster players).filter (fun p => !p.isAI)
      = players.filter (fun p => !p.isAI) ∧
    desiredAgentCount 0 = 0 ∧ desiredAgentCount 1 = 0 ∧ desiredAgentCount 2 = 1 ∧
    desiredAgentCount 3 = 2 ∧ desiredAgentCount 4 = 2 ∧ desiredAgentCount h = 3 := by
  have hhumans_notAI : ∀ p ∈ players.filter (fun p => !p.isAI), (fun p => p.isAI) p = false := by
    intro p hp
    have := (List.mem_filter.mp hp).2
    simpa using this
  have hagents_AI : ∀ p ∈ players.filter (fun p => p.isAI), (fun p => p.isAI) p = true := by
    intro p hp
    exact (List.mem_filter.mp hp).2
  have htake_AI : ∀ n, ∀ p ∈ (players.filter (fun p => p.isAI)).take n,
      (fun p => p.isAI) p = true := by
    intro n p hp
    exact hagents_AI p (List.take_subset n _ hp)
  have hmk_AI : ∀ n, ∀ p ∈ (List.range n).map mkAgent, (fun p => p.isAI) p = true := by
    intro n p hp
    rcases List.mem_map.mp hp with ⟨i, _, hi⟩
    rw [← hi]
    rfl
  have hmk_notAI : ∀ n, ∀ p ∈ (List.range n).map mkAgent, (fun p => !p.isAI) p = false := by
    intro n p hp
    rcases List.mem_map.mp hp with ⟨i, _, hi⟩
    rw [← hi]
    rfl
  have htake_notAI : ∀ n, ∀ p ∈ (players.filter (fun p => p.isAI)).take n,
      (fun p => !p.isAI) p = false := by
    intro n p hp
    have := hagents_AI p (List.take_subset n _ hp)
    simpa using this
  have hhumans_keep : ∀ p ∈ players.filter (fun p => !p.isAI), (fun p => !p.isAI) p = true := by
    intro p hp
    exact (List.mem_filter.mp hp).2
  refine ⟨?_, ?_, rfl, rfl, rfl, rfl, rfl, ?_⟩
  · unfold reconcileAgentRoster
    rw [List.filter_append, List.filter_append,
      filter_all_false _ _ hhumans_notAI,
      filter_all_true _ _ (htake_AI _),
      filter_all_true _ _ (hmk_AI _)]
    rw [List.nil_append, List.length_append, List.length_take, List.length_map,
      List.length_range]
    omega
  · unfold reconcileAgentRoster
    rw [List.filter_append, List.filter_append,
      filter_all_true _ _ hhumans_keep,
      filter_all_false _ _ (htake_notAI _),
      filter_all_false _ _ (hmk_notAI _)]
    simp
  · unfold desiredAgentCount
    have h1 : ¬ h ≤ 1 := by omega
    have h2 : ¬ h = 2 := by omega
    have h4 : ¬ h ≤ 4 := by omega
    rw [if_neg h1, if_neg h2, if_neg h4]

theorem agent_roster_step_function_witness :
    ((reconcileAgentRoster exPlayers).filter (fun p => p.isAI)).length
      = desiredAgentCount ((exPlayers.filter (fun p => !p.isAI)).length) ∧
    desiredAgentCount 5 = 3 := by
  have h := agent_roster_step_function exPlayers 5 (by decide)
  exact ⟨h.1, h.2.2.2.2.2.2.2⟩

end Impostor
